import Mathlib

/-!
Shallow embedding of the Order Fulfillment & Key Inventory Allocation Engine
of this repository. The repository contains two near-duplicate variants of the
same Telegram bot, `bot.py` and `pannel.py`; definitions under the `Bot`
namespace embed `bot.py`, definitions under the `Panel` namespace embed
`pannel.py`. The database (CockroachDB accessed through asyncpg) is modelled
as explicit lists of records; SQL statements become pure functions on that
state. Timestamps are `Nat`, decimal amounts are `Int` (all amounts in the
sources are integer rupee values tabulated in `DEFAULT_PRICES`).
-/

/-- A row of the `keys` table (`CREATE TABLE keys` in both sources):
id, duration_days, key_value, is_used, added_at, product_name. The UUID
primary key is modelled as a `Nat`. -/
structure KeyRec where
  id : Nat
  duration_days : Int
  key_value : String
  is_used : Bool
  added_at : Nat
  product_name : String
deriving DecidableEq, Repr

/-- A row of the `orders` table. `bot.py` declares an extra `approved_by`
column; `pannel.py`'s schema does not have it, and its UPDATE statements never
touch it, so for `pannel.py` the field simply stays `none`. -/
structure OrderRec where
  id : String
  user_id : String
  username : String
  duration_days : Int
  amount : Int
  status : String
  key_assigned : Option String
  created_at : Nat
  approved_at : Option Nat
  product_name : String
  approved_by : Option String
deriving DecidableEq, Repr

/-- A row of the `sales_history` table. -/
structure SaleRec where
  user_id : String
  username : String
  product_name : String
  duration_days : Int
  amount : Int
  key_given : String
deriving DecidableEq, Repr

/-- A row of the `products` table (`bot.py` only; `pannel.py` uses the static
`PRODUCT_SHORT_NAMES` dictionary instead). -/
structure ProductRec where
  name : String
  short_name : Option String
  is_active : Bool
deriving DecidableEq, Repr

/-- The whole database state. The order of each list models the row order in
which the store returns rows for an unordered `SELECT`; for CockroachDB that
is primary-key order, and the primary keys are random UUIDs, so this order is
unrelated to insertion time unless a query says `ORDER BY`. -/
structure DB where
  keys : List KeyRec
  orders : List OrderRec
  sales : List SaleRec
  products : List ProductRec
deriving DecidableEq, Repr

/-- `DEFAULT_PLANS = [1, 3, 7, 15, 30, 60]`, identical in both sources. -/
def DEFAULT_PLANS : List Int := [1, 3, 7, 15, 30, 60]

/-- The WHERE clause shared by both key-selection queries:
`duration_days=$1 AND product_name=$2 AND is_used=FALSE`. -/
def eligible (dur : Int) (prod : String) (k : KeyRec) : Bool :=
  k.duration_days == dur && k.product_name == prod && !k.is_used

/-- First row of a list when sorted by `added_at` ascending: the row returned
by `bot.py`'s `SELECT ... ORDER BY added_at LIMIT 1`. Among rows with equal
`added_at` the earlier row wins, modelling a stable sort. -/
def pickEarliest : List KeyRec → Option KeyRec
  | [] => none
  | k :: ks =>
    match pickEarliest ks with
    | none => some k
    | some m => if m.added_at < k.added_at then some m else some k

/-- `bot.py` line 376: `SELECT id, key_value FROM keys WHERE ... ORDER BY
added_at LIMIT 1`. -/
def Bot.selectKey (keys : List KeyRec) (dur : Int) (prod : String) : Option KeyRec :=
  pickEarliest (keys.filter (eligible dur prod))

/-- `pannel.py` line 425: `SELECT * FROM keys WHERE ... LIMIT 1` — no
`ORDER BY`, so the store may return any matching row; the model takes the
first matching row in the store's row order (the list order of `DB.keys`). -/
def Panel.selectKey (keys : List KeyRec) (dur : Int) (prod : String) : Option KeyRec :=
  (keys.filter (eligible dur prod)).head?

/-- Outcome of an approve attempt, mirroring the messages edited/sent by
`approve_order` in both sources. -/
inductive ApproveResult
  | orderNotFound
  | alreadyDecided (st : String)
  | outOfStock
  | ok (key : String)
deriving DecidableEq, Repr

/-- Outcome of a reject attempt. -/
inductive RejectResult
  | orderNotFound
  | alreadyDecided (st : String)
  | ok
deriving DecidableEq, Repr

/-- `bot.py` `approve_order`, database core (lines 367-418): fetch the order,
guard on existence and `pending` status, select the oldest unused key, then
(inside one `conn.transaction()` block) mark the key used, update the order
(status, key_assigned, approved_at, approved_by) and insert the sales row. -/
def Bot.approve_order (db : DB) (oid operatorId : String) (now : Nat) :
    DB × ApproveResult :=
  match db.orders.find? (fun o => o.id == oid) with
  | none => (db, .orderNotFound)
  | some o =>
    if o.status != "pending" then (db, .alreadyDecided o.status)
    else
      match Bot.selectKey db.keys o.duration_days o.product_name with
      | none => (db, .outOfStock)
      | some kr =>
        ({ db with
            keys := db.keys.map fun k =>
              if k.id == kr.id then { k with is_used := true } else k
            orders := db.orders.map fun x =>
              if x.id == oid then
                { x with status := "approved", key_assigned := some kr.key_value,
                         approved_at := some now, approved_by := some operatorId }
              else x
            sales := db.sales ++
              [⟨o.user_id, o.username, o.product_name, o.duration_days,
                o.amount, kr.key_value⟩] },
          .ok kr.key_value)

/-- The three write statements of `pannel.py` `approve_order` (lines 447-471),
in source order: UPDATE orders (status, key_assigned, approved_at — no
`approved_by` in this variant), UPDATE keys SET is_used, INSERT sales row.
`pannel.py` issues them as three separate auto-committed statements: there is
no `conn.transaction()` block around them. -/
def Panel.approveWrites (oid : String) (now : Nat) (o : OrderRec) (kr : KeyRec) :
    List (DB → DB) :=
  [ fun d => { d with orders := d.orders.map fun x =>
      if x.id == oid then
        { x with status := "approved", key_assigned := some kr.key_value,
                 approved_at := some now }
      else x },
    fun d => { d with keys := d.keys.map fun k =>
      if k.id == kr.id then { k with is_used := true } else k },
    fun d => { d with sales := d.sales ++
      [⟨o.user_id, o.username, o.product_name, o.duration_days,
        o.amount, kr.key_value⟩] } ]

/-- `pannel.py` `approve_order`, database core (lines 410-471): fetch the
order, guard on existence and `pending` status, select an unused key (no
FIFO ordering), then run the three writes. -/
def Panel.approve_order (db : DB) (oid : String) (now : Nat) : DB × ApproveResult :=
  match db.orders.find? (fun o => o.id == oid) with
  | none => (db, .orderNotFound)
  | some o =>
    if o.status != "pending" then (db, .alreadyDecided o.status)
    else
      match Panel.selectKey db.keys o.duration_days o.product_name with
      | none => (db, .outOfStock)
      | some kr =>
        ((Panel.approveWrites oid now o kr).foldl (fun d f => f d) db,
          .ok kr.key_value)

/-- State visible after `pannel.py`'s approve is aborted once `k` of its three
write statements have run. Each statement auto-commits (no transaction block),
so an abort keeps the effects of the statements already executed. -/
def Panel.approveUpto (db : DB) (oid : String) (now : Nat) (k : Nat) : DB :=
  match db.orders.find? (fun o => o.id == oid) with
  | none => db
  | some o =>
    if o.status != "pending" then db
    else
      match Panel.selectKey db.keys o.duration_days o.product_name with
      | none => db
      | some kr => ((Panel.approveWrites oid now o kr).take k).foldl (fun d f => f d) db

/-- The three write statements of `bot.py` `approve_order` (lines 408-418),
in source order: UPDATE keys SET is_used, UPDATE orders, INSERT sales row;
all three are inside one `async with conn.transaction()` block. -/
def Bot.approveWrites (oid operatorId : String) (now : Nat) (o : OrderRec)
    (kr : KeyRec) : List (DB → DB) :=
  [ fun d => { d with keys := d.keys.map fun k =>
      if k.id == kr.id then { k with is_used := true } else k },
    fun d => { d with orders := d.orders.map fun x =>
      if x.id == oid then
        { x with status := "approved", key_assigned := some kr.key_value,
                 approved_at := some now, approved_by := some operatorId }
      else x },
    fun d => { d with sales := d.sales ++
      [⟨o.user_id, o.username, o.product_name, o.duration_days,
        o.amount, kr.key_value⟩] } ]

/-- State visible after `bot.py`'s approve is aborted once `k` of its three
write statements have run. All three writes sit inside one
`conn.transaction()` block, so an abort before the block completes rolls every
write back; only `k ≥ 3` (block completed and committed) makes them visible. -/
def Bot.approveUpto (db : DB) (oid operatorId : String) (now : Nat) (k : Nat) : DB :=
  match db.orders.find? (fun o => o.id == oid) with
  | none => db
  | some o =>
    if o.status != "pending" then db
    else
      match Bot.selectKey db.keys o.duration_days o.product_name with
      | none => db
      | some kr =>
        let ws := Bot.approveWrites oid operatorId now o kr
        if k < ws.length then db
        else ws.foldl (fun d f => f d) db

/-- `reject_order` in `bot.py` (lines 464-480): fetch the order, same guards,
then `UPDATE orders SET status='rejected' WHERE id=$1`. -/
def Bot.reject_order (db : DB) (oid : String) : DB × RejectResult :=
  match db.orders.find? (fun o => o.id == oid) with
  | none => (db, .orderNotFound)
  | some o =>
    if o.status != "pending" then (db, .alreadyDecided o.status)
    else
      ({ db with orders := db.orders.map fun x =>
          if x.id == oid then { x with status := "rejected" } else x },
        .ok)

/-- `reject_order` in `pannel.py` (lines 499-530): identical database logic to
the `bot.py` variant. -/
def Panel.reject_order (db : DB) (oid : String) : DB × RejectResult :=
  match db.orders.find? (fun o => o.id == oid) with
  | none => (db, .orderNotFound)
  | some o =>
    if o.status != "pending" then (db, .alreadyDecided o.status)
    else
      ({ db with orders := db.orders.map fun x =>
          if x.id == oid then { x with status := "rejected" } else x },
        .ok)

/-- Outcome of an `/add_key` command. -/
inductive AddKeyResult
  | invalidDuration
  | invalidProduct
  | duplicateKey
  | ok
deriving DecidableEq, Repr

/-- `bot.py` `get_full_name_by_short` (lines 166-172): look a product up in the
`products` table by short name, active rows only. -/
def Bot.get_full_name_by_short (products : List ProductRec) (s : String) :
    Option String :=
  (products.find? (fun p => p.short_name == some s && p.is_active)).map (·.name)

/-- `bot.py` `add_key` (lines 498-542), database core after argument parsing:
reject a duration outside `DEFAULT_PLANS`, resolve the product short name via
the `products` table, reject a duplicate `key_value`, else insert the key row
(fresh UUID `newId`, `is_used=FALSE`, `added_at=now`). -/
def Bot.add_key (db : DB) (days : Int) (key product_short : String)
    (newId now : Nat) : DB × AddKeyResult :=
  if !(DEFAULT_PLANS.contains days) then (db, .invalidDuration)
  else
    match Bot.get_full_name_by_short db.products product_short with
    | none => (db, .invalidProduct)
    | some product_name =>
      if db.keys.any (fun k => k.key_value == key) then (db, .duplicateKey)
      else
        ({ db with keys := db.keys ++ [⟨newId, days, key, false, now, product_name⟩] },
          .ok)

/-- `pannel.py`'s static `PRODUCT_SHORT_NAMES` dictionary (lines 60-65). -/
def PRODUCT_SHORT_NAMES : List (String × String) :=
  [("mars", "mars loader"), ("kill", "kill loader"),
   ("bgmi", "bgmi loader"), ("bat", "bat loader")]

/-- `pannel.py` `add_key` (lines 548-597), database core after argument
parsing: reject a duration outside `DEFAULT_PLANS`, resolve the product via
the static dictionary, reject a duplicate `key_value`, else insert the key. -/
def Panel.add_key (db : DB) (days : Int) (key product_short : String)
    (newId now : Nat) : DB × AddKeyResult :=
  if !(DEFAULT_PLANS.contains days) then (db, .invalidDuration)
  else
    match (PRODUCT_SHORT_NAMES.find? (fun p => p.1 == product_short)).map (·.2) with
    | none => (db, .invalidProduct)
    | some product_name =>
      if db.keys.any (fun k => k.key_value == key) then (db, .duplicateKey)
      else
        ({ db with keys := db.keys ++ [⟨newId, days, key, false, now, product_name⟩] },
          .ok)

/-- The `INSERT INTO orders` issued at the end of a purchase conversation
(`payment_proof` in both sources): a fresh order with status `'pending'` and
`key_assigned` left NULL. The `orders` primary-key constraint makes an INSERT
with an already-present id fail, leaving the table unchanged; that constraint
is modelled by the guard. -/
def createOrder (db : DB) (oid uid uname prod : String) (dur amount : Int)
    (now : Nat) : DB :=
  if db.orders.any (fun o => o.id == oid) then db
  else
    { db with orders := db.orders ++
        [⟨oid, uid, uname, dur, amount, "pending", none, now, none, prod, none⟩] }

/-- The per-buyer conversation data read by `payment_proof`:
`context.user_data` entries `selected_product`, `selected_plan`, `price`
(absent entries are `None` in Python, `none` here). -/
structure Session where
  selected_product : Option String
  selected_plan : Option Int
  price : Option Int
deriving DecidableEq, Repr

/-- Python truthiness of an optional string: `None` and `""` are falsy. -/
def truthyStr : Option String → Bool
  | none => false
  | some s => !(s == "")

/-- Python truthiness of an optional integer: `None` and `0` are falsy. -/
def truthyInt : Option Int → Bool
  | none => false
  | some n => !(n == 0)

/-- Outcome reported to the buyer by `payment_proof`. -/
inductive ProofResult
  | sessionExpired
  | submitted
deriving DecidableEq, Repr

/-- `bot.py` `payment_proof` (lines 281-345), database/notification core: if
`not product or not duration or not price` the handler replies "Session
expired" and ends without touching the database or messaging any admin;
otherwise it inserts the pending order and forwards the proof to every admin
id. Returns the new state, the list of admin ids messaged, and the reply. -/
def Bot.payment_proof (db : DB) (sess : Session) (uid uname oid : String)
    (admins : List Nat) (now : Nat) : DB × List Nat × ProofResult :=
  if !truthyStr sess.selected_product || !truthyInt sess.selected_plan
      || !truthyInt sess.price then
    (db, [], .sessionExpired)
  else
    (createOrder db oid uid uname (sess.selected_product.getD "")
        (sess.selected_plan.getD 0) (sess.price.getD 0) now,
      admins, .submitted)

/-- `pannel.py` `payment_proof` (lines 314-394): identical database and
notification logic to the `bot.py` variant. -/
def Panel.payment_proof (db : DB) (sess : Session) (uid uname oid : String)
    (admins : List Nat) (now : Nat) : DB × List Nat × ProofResult :=
  if !truthyStr sess.selected_product || !truthyInt sess.selected_plan
      || !truthyInt sess.price then
    (db, [], .sessionExpired)
  else
    (createOrder db oid uid uname (sess.selected_product.getD "")
        (sess.selected_plan.getD 0) (sess.price.getD 0) now,
      admins, .submitted)

/-- The exception classes that can abort a database attempt, as distinguished
by `bot.py`'s approve handler: the three asyncpg connection-error classes
named in its `except` clause, a serialization conflict
(`asyncpg.exceptions.SerializationError`, raised by CockroachDB on
transaction-retry errors), and any other error. -/
inductive DbErr
  | connectionDoesNotExist
  | interfaceError
  | postgresConnectionError
  | serializationConflict
  | otherError
deriving DecidableEq, Repr

/-- Which errors `bot.py`'s retry loop catches and retries (line 423:
`except (asyncpg.exceptions.ConnectionDoesNotExistError,
asyncpg.exceptions._base.InterfaceError,
asyncpg.exceptions.PostgresConnectionError)`). Every other exception
propagates to the handler's outer `except Exception` without a retry. -/
def retriedErr : DbErr → Bool
  | .connectionDoesNotExist => true
  | .interfaceError => true
  | .postgresConnectionError => true
  | .serializationConflict => false
  | .otherError => false

/-- `max_retries = 3` in `bot.py` `approve_order` (line 362). -/
def max_retries : Nat := 3

/-- What the retry loop hands back: a business outcome produced by a completed
attempt, or the exception that escaped the loop. -/
inductive RetryOutcome
  | business (r : ApproveResult)
  | raised (e : DbErr)
deriving DecidableEq, Repr

/-- One pass of `bot.py`'s `for attempt in range(max_retries)` loop. `sched`
says whether the attempt with a given index dies with a storage error before
committing (in which case the transaction leaves the database unchanged) or
completes and produces its business result. `used` counts attempts already
made, `remaining` the attempts the loop may still make. A retried error is
re-raised on the last attempt (`if attempt == max_retries - 1: raise`),
otherwise the loop sleeps one second and retries; a non-retried error is
re-raised immediately. -/
def retryGo (sched : Nat → Option DbErr) (db : DB) (oid op : String) (now : Nat) :
    Nat → Nat → DB × RetryOutcome × Nat
  | used, 0 => (db, .raised .otherError, used)
  | used, r + 1 =>
    match sched used with
    | none =>
      let a := Bot.approve_order db oid op now
      (a.1, .business a.2, used + 1)
    | some e =>
      if retriedErr e && r > 0 then retryGo sched db oid op now (used + 1) r
      else (db, .raised e, used + 1)

/-- `bot.py` `approve_order`'s bounded retry wrapper (lines 362-430): at most
`max_retries` attempts; a completed attempt's business result is returned at
once, never retried. The third component is the number of attempts made. -/
def Bot.approveWithRetry (sched : Nat → Option DbErr) (db : DB) (oid op : String)
    (now : Nat) : DB × RetryOutcome × Nat :=
  retryGo sched db oid op now 0 max_retries

/-- The operations of the order lifecycle reachable through the handlers: a
conversation creating an order, either variant's approve, and either
variant's reject. -/
inductive AdminOp
  | create (oid uid uname prod : String) (dur amount : Int) (now : Nat)
  | approveB (oid operatorId : String) (now : Nat)
  | approveP (oid : String) (now : Nat)
  | rejectB (oid : String)
  | rejectP (oid : String)

/-- Effect of one lifecycle operation on the database. -/
def execOp (db : DB) : AdminOp → DB
  | .create oid uid uname prod dur amount now =>
    createOrder db oid uid uname prod dur amount now
  | .approveB oid operatorId now => (Bot.approve_order db oid operatorId now).1
  | .approveP oid now => (Panel.approve_order db oid now).1
  | .rejectB oid => (Bot.reject_order db oid).1
  | .rejectP oid => (Panel.reject_order db oid).1

/-- The order-table invariant of the spec: `key_assigned` is non-null iff the
order's status is `approved`. -/
def ordInv (db : DB) : Prop :=
  ∀ o ∈ db.orders, o.key_assigned.isSome = true ↔ o.status = "approved"

/-- Order ids are pairwise distinct — the `orders` primary-key constraint. -/
def idsNodup (db : DB) : Prop :=
  (db.orders.map (fun o => o.id)).Nodup

instance (db : DB) : Decidable (ordInv db) := by
  unfold ordInv; infer_instance

instance (db : DB) : Decidable (idsNodup db) := by
  unfold idsNodup; infer_instance

/-- A key row eliminated from none: `pickEarliest` of a nonempty list always
returns a row. -/
theorem pickEarliest_cons_ne_none (k : KeyRec) (ks : List KeyRec) :
    pickEarliest (k :: ks) ≠ none := by
  cases h : pickEarliest ks with
  | none => simp [pickEarliest, h]
  | some m =>
    simp only [pickEarliest, h]
    split <;> simp

/-- The row chosen by `pickEarliest` is a row of the list. -/
theorem pickEarliest_mem : ∀ {l : List KeyRec} {k : KeyRec},
    pickEarliest l = some k → k ∈ l := by
  intro l
  induction l with
  | nil => intro k h; simp [pickEarliest] at h
  | cons x xs ih =>
    intro k h
    cases hx : pickEarliest xs with
    | none =>
      simp only [pickEarliest, hx] at h
      injection h with h
      subst h
      exact List.mem_cons_self _ _
    | some m =>
      simp only [pickEarliest, hx] at h
      split at h
      · injection h with h
        subst h
        exact List.mem_cons_of_mem _ (ih hx)
      · injection h with h
        subst h
        exact List.mem_cons_self _ _

/-- The row chosen by `pickEarliest` carries the minimal `added_at` of the
list. -/
theorem pickEarliest_min : ∀ {l : List KeyRec} {k : KeyRec},
    pickEarliest l = some k → ∀ x ∈ l, k.added_at ≤ x.added_at := by
  intro l
  induction l with
  | nil => intro k h; simp [pickEarliest] at h
  | cons y ys ih =>
    intro k h x hx
    cases hy : pickEarliest ys with
    | none =>
      simp only [pickEarliest, hy] at h
      injection h with h
      subst h
      have hnil : ys = [] := by
        cases ys with
        | nil => rfl
        | cons a as => exact absurd hy (pickEarliest_cons_ne_none a as)
      subst hnil
      have := List.mem_singleton.mp hx
      subst this
      exact le_refl _
    | some m =>
      simp only [pickEarliest, hy] at h
      rcases List.mem_cons.mp hx with rfl | hxs
      · split at h
        next hlt =>
          injection h with h
          subst h
          exact Nat.le_of_lt hlt
        next hnlt =>
          injection h with h
          subst h
          exact le_refl _
      · split at h
        next hlt =>
          injection h with h
          subst h
          exact ih hy x hxs
        next hnlt =>
          injection h with h
          subst h
          exact le_trans (Nat.le_of_not_lt hnlt) (ih hy x hxs)

/-- `find?` with an id-test commutes with mapping an id-preserving update over
the list — the model of a SQL UPDATE leaving row keys untouched. -/
theorem find?_map_id_pres (l : List OrderRec) (g : OrderRec → OrderRec) (a : String)
    (hg : ∀ x, (g x).id = x.id) :
    (l.map g).find? (fun o => o.id == a) = (l.find? (fun o => o.id == a)).map g := by
  have hp : ((fun o : OrderRec => o.id == a) ∘ g) = fun o => o.id == a := by
    funext x
    simp [Function.comp, hg x]
  rw [List.find?_map, hp]

/-- After marking every key with the chosen id used, no eligible key remains,
provided every eligible key of the original list had that id. -/
theorem filter_flip_eq_nil (ks : List KeyRec) (d : Int) (pr : String) (kid : Nat)
    (h : ∀ x ∈ ks, eligible d pr x = true → x.id = kid) :
    (ks.map fun k => if k.id == kid then { k with is_used := true } else k).filter
      (eligible d pr) = [] := by
  rw [List.filter_eq_nil_iff]
  intro y hy
  rcases List.mem_map.mp hy with ⟨x, hx, rfl⟩
  by_cases hid : (x.id == kid) = true
  · rw [if_pos hid]
    simp [eligible]
  · rw [if_neg hid]
    intro hel
    exact hid (beq_iff_eq.mpr (h x hx hel))

/-- Membership form of the single-credential pool hypothesis: if the filter of
eligible keys is exactly `[k]`, every eligible key of the list is `k`. -/
theorem eligible_unique_of_filter_singleton {ks : List KeyRec} {d : Int}
    {pr : String} {k : KeyRec} (h : ks.filter (eligible d pr) = [k]) :
    ∀ x ∈ ks, eligible d pr x = true → x = k := by
  intro x hx hel
  have : x ∈ ks.filter (eligible d pr) := List.mem_filter.mpr ⟨hx, hel⟩
  rw [h] at this
  exact List.mem_singleton.mp this

/-- The single in-stock credential of the C1/C2 scenario of the spec. -/
def kA : KeyRec := ⟨1, 15, "BGMI-15-AAA", false, 1, "bgmi loader"⟩

/-- Pending order O1 of the scenario. -/
def oA : OrderRec :=
  ⟨"o1", "u1", "alice", 15, 699, "pending", none, 0, none, "bgmi loader", none⟩

/-- Pending order O2 of the scenario, same product and duration. -/
def oB : OrderRec :=
  ⟨"o2", "u2", "bob", 15, 699, "pending", none, 0, none, "bgmi loader", none⟩

/-- The `bgmi` product row. -/
def prodA : ProductRec := ⟨"bgmi loader", some "bgmi", true⟩

/-- Scenario database: one credential, two pending orders. -/
def db0 : DB := ⟨[kA], [oA, oB], [], [prodA]⟩

/-- Credential created first (timestamp 1). -/
def kEarly : KeyRec := ⟨1, 15, "KEY-A", false, 1, "bgmi loader"⟩

/-- Credential created second (timestamp 2). -/
def kLate : KeyRec := ⟨2, 15, "KEY-B", false, 2, "bgmi loader"⟩

/-- Database whose row order puts the later-created credential first — a
layout CockroachDB produces routinely, since rows come back in primary-key
order and the primary keys are random UUIDs. -/
def dbFifo : DB := ⟨[kLate, kEarly], [oA], [], [prodA]⟩

/-- Closed form of a successful `bot.py` approve: with the order found,
pending, and a key selected, the result is exactly the three writes plus
`ok`. -/
theorem Bot.approve_success_eq (db : DB) (o1 : OrderRec) (k : KeyRec)
    (op1 : String) (t1 : Nat)
    (h1 : db.orders.find? (fun o => o.id == o1.id) = some o1)
    (hs1 : o1.status = "pending")
    (hsel : Bot.selectKey db.keys o1.duration_days o1.product_name = some k) :
    Bot.approve_order db o1.id op1 t1 =
      ({ db with
          keys := db.keys.map fun kk =>
            if kk.id == k.id then { kk with is_used := true } else kk
          orders := db.orders.map fun x =>
            if x.id == o1.id then
              { x with status := "approved", key_assigned := some k.key_value,
                       approved_at := some t1, approved_by := some op1 }
            else x
          sales := db.sales ++
            [⟨o1.user_id, o1.username, o1.product_name, o1.duration_days,
              o1.amount, k.key_value⟩] }, .ok k.key_value) := by
  have hbne1 : (o1.status != "pending") = false := by simp [hs1]
  simp only [Bot.approve_order, h1, hbne1, hsel]
  rfl

/-- Closed form of a successful `pannel.py` approve. -/
theorem panel_approve_success_eq (db : DB) (o1 : OrderRec) (k : KeyRec) (t1 : Nat)
    (h1 : db.orders.find? (fun o => o.id == o1.id) = some o1)
    (hs1 : o1.status = "pending")
    (hsel : Panel.selectKey db.keys o1.duration_days o1.product_name = some k) :
    Panel.approve_order db o1.id t1 =
      ({ db with
          keys := db.keys.map fun kk =>
            if kk.id == k.id then { kk with is_used := true } else kk
          orders := db.orders.map fun x =>
            if x.id == o1.id then
              { x with status := "approved", key_assigned := some k.key_value,
                       approved_at := some t1 }
            else x
          sales := db.sales ++
            [⟨o1.user_id, o1.username, o1.product_name, o1.duration_days,
              o1.amount, k.key_value⟩] }, .ok k.key_value) := by
  have hbne1 : (o1.status != "pending") = false := by simp [hs1]
  simp only [Panel.approve_order, h1, hbne1, hsel, Panel.approveWrites, List.foldl]
  rfl

/-- An out-of-stock `bot.py` approve leaves everything unchanged. -/
theorem Bot.approve_oos_eq (db : DB) (o2 : OrderRec) (op2 : String) (t2 : Nat)
    (h2 : db.orders.find? (fun o => o.id == o2.id) = some o2)
    (hs2 : o2.status = "pending")
    (hsel : Bot.selectKey db.keys o2.duration_days o2.product_name = none) :
    Bot.approve_order db o2.id op2 t2 = (db, .outOfStock) := by
  have hbne2 : (o2.status != "pending") = false := by simp [hs2]
  simp only [Bot.approve_order, h2, hbne2, hsel]
  rfl

/-- An out-of-stock `pannel.py` approve leaves everything unchanged. -/
theorem panel_approve_oos_eq (db : DB) (o2 : OrderRec) (t2 : Nat)
    (h2 : db.orders.find? (fun o => o.id == o2.id) = some o2)
    (hs2 : o2.status = "pending")
    (hsel : Panel.selectKey db.keys o2.duration_days o2.product_name = none) :
    Panel.approve_order db o2.id t2 = (db, .outOfStock) := by
  have hbne2 : (o2.status != "pending") = false := by simp [hs2]
  simp only [Panel.approve_order, h2, hbne2, hsel]
  rfl

/-- C1: if the pool holds exactly one unconsumed credential matching a product
and duration and two pending orders O1, O2 both request it, approving O1 and
then O2 (in either source variant) approves O1 with that credential's value
assigned, while O2's approve fails with OutOfStock, leaves O2 pending with no
credential assigned, and changes nothing — inventory and sales included. -/
theorem c1_sequential_pool_drain (db : DB) (o1 o2 : OrderRec) (k : KeyRec)
    (op1 op2 : String) (t1 t2 : Nat)
    (h1 : db.orders.find? (fun o => o.id == o1.id) = some o1)
    (h2 : db.orders.find? (fun o => o.id == o2.id) = some o2)
    (hne : o1.id ≠ o2.id)
    (hs1 : o1.status = "pending") (hs2 : o2.status = "pending")
    (hk2 : o2.key_assigned = none)
    (hdur : o2.duration_days = o1.duration_days)
    (hprod : o2.product_name = o1.product_name)
    (hpool : db.keys.filter (eligible o1.duration_days o1.product_name) = [k]) :
    (Bot.approve_order db o1.id op1 t1).2 = .ok k.key_value
    ∧ (((Bot.approve_order db o1.id op1 t1).1.orders.find?
          (fun o => o.id == o1.id)).map
        (fun o => (o.status, o.key_assigned)))
        = some ("approved", some k.key_value)
    ∧ Bot.approve_order (Bot.approve_order db o1.id op1 t1).1 o2.id op2 t2
        = ((Bot.approve_order db o1.id op1 t1).1, .outOfStock)
    ∧ (((Bot.approve_order db o1.id op1 t1).1.orders.find?
          (fun o => o.id == o2.id)).map
        (fun o => (o.status, o.key_assigned))) = some ("pending", none)
    ∧ (Panel.approve_order db o1.id t1).2 = .ok k.key_value
    ∧ (((Panel.approve_order db o1.id t1).1.orders.find?
          (fun o => o.id == o1.id)).map
        (fun o => (o.status, o.key_assigned)))
        = some ("approved", some k.key_value)
    ∧ Panel.approve_order (Panel.approve_order db o1.id t1).1 o2.id t2
        = ((Panel.approve_order db o1.id t1).1, .outOfStock)
    ∧ (((Panel.approve_order db o1.id t1).1.orders.find?
          (fun o => o.id == o2.id)).map
        (fun o => (o.status, o.key_assigned))) = some ("pending", none) := by
  have huniq : ∀ x ∈ db.keys,
      eligible o1.duration_days o1.product_name x = true → x.id = k.id :=
    fun x hx he =>
      congrArg KeyRec.id (eligible_unique_of_filter_singleton hpool x hx he)
  have hselB : Bot.selectKey db.keys o1.duration_days o1.product_name = some k := by
    unfold Bot.selectKey
    rw [hpool]
    rfl
  have hselP : Panel.selectKey db.keys o1.duration_days o1.product_name = some k := by
    unfold Panel.selectKey
    rw [hpool]
    rfl
  have hid21 : (o2.id == o1.id) = false := beq_eq_false_iff_ne.mpr (Ne.symm hne)
  have happB := Bot.approve_success_eq db o1 k op1 t1 h1 hs1 hselB
  have happP := panel_approve_success_eq db o1 k t1 h1 hs1 hselP
  have hfind1B : ((Bot.approve_order db o1.id op1 t1).1.orders.find?
      (fun o => o.id == o1.id)) = some
        { o1 with status := "approved", key_assigned := some k.key_value,
                  approved_at := some t1, approved_by := some op1 } := by
    simp only [happB]
    rw [find?_map_id_pres]
    · rw [h1]
      simp
    · intro x
      by_cases hx : (x.id == o1.id) = true <;> simp [hx]
  have hfind2B : ((Bot.approve_order db o1.id op1 t1).1.orders.find?
      (fun o => o.id == o2.id)) = some o2 := by
    simp only [happB]
    rw [find?_map_id_pres]
    · rw [h2, Option.map_some', if_neg (by simp [hid21])]
    · intro x
      by_cases hx : (x.id == o1.id) = true <;> simp [hx]
  have hselB2 : Bot.selectKey (Bot.approve_order db o1.id op1 t1).1.keys
      o2.duration_days o2.product_name = none := by
    simp only [happB]
    unfold Bot.selectKey
    rw [hdur, hprod, filter_flip_eq_nil _ _ _ _ huniq]
    rfl
  have hfind1P : ((Panel.approve_order db o1.id t1).1.orders.find?
      (fun o => o.id == o1.id)) = some
        { o1 with status := "approved", key_assigned := some k.key_value,
                  approved_at := some t1 } := by
    simp only [happP]
    rw [find?_map_id_pres]
    · rw [h1]
      simp
    · intro x
      by_cases hx : (x.id == o1.id) = true <;> simp [hx]
  have hfind2P : ((Panel.approve_order db o1.id t1).1.orders.find?
      (fun o => o.id == o2.id)) = some o2 := by
    simp only [happP]
    rw [find?_map_id_pres]
    · rw [h2, Option.map_some', if_neg (by simp [hid21])]
    · intro x
      by_cases hx : (x.id == o1.id) = true <;> simp [hx]
  have hselP2 : Panel.selectKey (Panel.approve_order db o1.id t1).1.keys
      o2.duration_days o2.product_name = none := by
    simp only [happP]
    unfold Panel.selectKey
    rw [hdur, hprod, filter_flip_eq_nil _ _ _ _ huniq]
    rfl
  refine ⟨by rw [happB], by rw [hfind1B]; rfl,
    Bot.approve_oos_eq _ o2 op2 t2 hfind2B hs2 hselB2,
    by rw [hfind2B]; simp [hs2, hk2],
    by rw [happP], by rw [hfind1P]; rfl,
    panel_approve_oos_eq _ o2 t2 hfind2P hs2 hselP2,
    by rw [hfind2P]; simp [hs2, hk2]⟩

/-- Witness for C1 at the spec's scenario: pool `[BGMI-15-AAA]`, orders O1,
O2 for `bgmi loader`, 15 days. -/
theorem c1_sequential_pool_drain_witness :
    (Bot.approve_order db0 oA.id "a1" 5).2 = .ok kA.key_value
    ∧ (((Bot.approve_order db0 oA.id "a1" 5).1.orders.find?
          (fun o => o.id == oA.id)).map
        (fun o => (o.status, o.key_assigned)))
        = some ("approved", some kA.key_value)
    ∧ Bot.approve_order (Bot.approve_order db0 oA.id "a1" 5).1 oB.id "a2" 6
        = ((Bot.approve_order db0 oA.id "a1" 5).1, .outOfStock)
    ∧ (((Bot.approve_order db0 oA.id "a1" 5).1.orders.find?
          (fun o => o.id == oB.id)).map
        (fun o => (o.status, o.key_assigned))) = some ("pending", none)
    ∧ (Panel.approve_order db0 oA.id 5).2 = .ok kA.key_value
    ∧ (((Panel.approve_order db0 oA.id 5).1.orders.find?
          (fun o => o.id == oA.id)).map
        (fun o => (o.status, o.key_assigned)))
        = some ("approved", some kA.key_value)
    ∧ Panel.approve_order (Panel.approve_order db0 oA.id 5).1 oB.id 6
        = ((Panel.approve_order db0 oA.id 5).1, .outOfStock)
    ∧ (((Panel.approve_order db0 oA.id 5).1.orders.find?
          (fun o => o.id == oB.id)).map
        (fun o => (o.status, o.key_assigned))) = some ("pending", none) :=
  c1_sequential_pool_drain db0 oA oB kA "a1" "a2" 5 6 (by decide) (by decide)
    (by decide) (by decide) (by decide) (by decide) (by decide) (by decide)
    (by decide)

/-- C5: a decision on an order that is no longer pending — in either variant,
approve or reject — leaves the database untouched and reports the order's
current status back (`AlreadyDecided`). -/
theorem c5_terminal_states_idempotent (db : DB) (oid operatorId : String)
    (now : Nat) (o : OrderRec)
    (h : db.orders.find? (fun x => x.id == oid) = some o)
    (hs : o.status ≠ "pending") :
    Bot.approve_order db oid operatorId now = (db, .alreadyDecided o.status)
    ∧ Panel.approve_order db oid now = (db, .alreadyDecided o.status)
    ∧ Bot.reject_order db oid = (db, .alreadyDecided o.status)
    ∧ Panel.reject_order db oid = (db, .alreadyDecided o.status) := by
  have hb : (o.status != "pending") = true := by simpa [bne_iff_ne] using hs
  refine ⟨?_, ?_, ?_, ?_⟩ <;>
    simp [Bot.approve_order, Panel.approve_order, Bot.reject_order,
      Panel.reject_order, h, hb]

/-- An order already rejected, for the C5 witness. -/
def oDone : OrderRec :=
  ⟨"o3", "u3", "carol", 7, 499, "rejected", none, 0, none, "bgmi loader", none⟩

/-- Database for the C5 witness: one key in stock, one already-decided order. -/
def dbDone : DB := ⟨[kA], [oDone], [], [prodA]⟩

/-- Witness for C5: approve and reject on an already-rejected order are
no-ops reporting the status. -/
theorem c5_terminal_states_idempotent_witness :
    Bot.approve_order dbDone oDone.id "a1" 5 = (dbDone, .alreadyDecided oDone.status)
    ∧ Panel.approve_order dbDone oDone.id 5 = (dbDone, .alreadyDecided oDone.status)
    ∧ Bot.reject_order dbDone oDone.id = (dbDone, .alreadyDecided oDone.status)
    ∧ Panel.reject_order dbDone oDone.id = (dbDone, .alreadyDecided oDone.status) :=
  c5_terminal_states_idempotent dbDone oDone.id "a1" 5 oDone (by decide) (by decide)

/-- C7: a successful reject of a pending order, in either variant, only flips
that order's status to `rejected`: the keys and sales tables are returned
unchanged and every other order row is returned as-is. -/
theorem c7_reject_frame (db : DB) (oid : String) (o : OrderRec)
    (h : db.orders.find? (fun x => x.id == oid) = some o)
    (hs : o.status = "pending") :
    Bot.reject_order db oid =
      ({ db with orders := db.orders.map fun x =>
          if x.id == oid then { x with status := "rejected" } else x }, .ok)
    ∧ Panel.reject_order db oid =
      ({ db with orders := db.orders.map fun x =>
          if x.id == oid then { x with status := "rejected" } else x }, .ok)
    ∧ (Bot.reject_order db oid).1.keys = db.keys
    ∧ (Bot.reject_order db oid).1.sales = db.sales
    ∧ (Panel.reject_order db oid).1.keys = db.keys
    ∧ (Panel.reject_order db oid).1.sales = db.sales := by
  have hb : (o.status != "pending") = false := by simp [hs]
  have e1 : Bot.reject_order db oid =
      ({ db with orders := db.orders.map fun x =>
          if x.id == oid then { x with status := "rejected" } else x }, .ok) := by
    simp only [Bot.reject_order, h, hb]
    rfl
  have e2 : Panel.reject_order db oid =
      ({ db with orders := db.orders.map fun x =>
          if x.id == oid then { x with status := "rejected" } else x }, .ok) := by
    simp only [Panel.reject_order, h, hb]
    rfl
  exact ⟨e1, e2, by rw [e1], by rw [e1], by rw [e2], by rw [e2]⟩

/-- Witness for C7: rejecting pending order O1 in the scenario database. -/
theorem c7_reject_frame_witness :
    Bot.reject_order db0 oA.id =
      ({ db0 with orders := db0.orders.map fun x =>
          if x.id == oA.id then { x with status := "rejected" } else x }, .ok)
    ∧ Panel.reject_order db0 oA.id =
      ({ db0 with orders := db0.orders.map fun x =>
          if x.id == oA.id then { x with status := "rejected" } else x }, .ok)
    ∧ (Bot.reject_order db0 oA.id).1.keys = db0.keys
    ∧ (Bot.reject_order db0 oA.id).1.sales = db0.sales
    ∧ (Panel.reject_order db0 oA.id).1.keys = db0.keys
    ∧ (Panel.reject_order db0 oA.id).1.sales = db0.sales :=
  c7_reject_frame db0 oA.id oA (by decide) (by decide)

/-- Helper: the order found by an id lookup carries that id. -/
theorem find?_id_some {l : List OrderRec} {a : String} {o : OrderRec}
    (h : l.find? (fun x => x.id == a) = some o) : o.id = a := by
  have h2 := List.find?_some h
  exact beq_iff_eq.mp h2

/-- Counterexample to C2 as stated: `pannel.py` runs its three allocation
writes as separate auto-committed statements — no transaction block — so an
attempt aborted after the first write leaves the order already `approved`
with the credential assigned while the credential is still unconsumed and no
sales row exists. The claim's "a failed or aborted attempt leaves the
credential unconsumed, the order unchanged, and no sales record written"
fails at this state: the order changed. -/
theorem c2_partial_write_counterexample :
    ((Panel.approveUpto db0 oA.id 5 1).orders.find? (fun x => x.id == oA.id)).map
        (fun x => (x.status, x.key_assigned))
      = some ("approved", some kA.key_value)
    ∧ (Panel.approveUpto db0 oA.id 5 1).keys = [kA]
    ∧ kA.is_used = false
    ∧ (Panel.approveUpto db0 oA.id 5 1).sales = [] := by decide

/-- C2 (amended): in `bot.py` the three allocation writes do run inside one
`conn.transaction()` block and are all-or-nothing — aborting the attempt
after any number of its write statements leaves either the database exactly
unchanged or the full committed effect of the approve; the precondition reads,
however, run before that transaction, and `pannel.py` has no transaction at
all (see the counterexample). -/
theorem c2_bot_writes_all_or_nothing (db : DB) (oid operatorId : String)
    (now k : Nat) :
    Bot.approveUpto db oid operatorId now k = db
    ∨ Bot.approveUpto db oid operatorId now k =
        (Bot.approve_order db oid operatorId now).1 := by
  unfold Bot.approveUpto Bot.approve_order
  cases hfind : db.orders.find? (fun o => o.id == oid) with
  | none => left; rfl
  | some o =>
    dsimp only
    by_cases hp : (o.status != "pending") = true
    · left
      rw [if_pos hp]
    · rw [if_neg hp, if_neg hp]
      cases hsel : Bot.selectKey db.keys o.duration_days o.product_name with
      | none => left; rfl
      | some kr =>
        dsimp only
        by_cases hk : k < (Bot.approveWrites oid operatorId now o kr).length
        · left
          rw [if_pos hk]
        · right
          rw [if_neg hk]
          rfl

/-- Counterexample to C3 as stated: `pannel.py`'s key query has no
`ORDER BY`, so the store may hand back any matching row. In a database whose
row order puts the later-created credential first, a successful approve
assigns the later credential even though an earlier-created eligible one
exists. -/
theorem c3_panel_not_fifo_counterexample :
    (Panel.approve_order dbFifo oA.id 7).2 = .ok kLate.key_value
    ∧ kEarly ∈ dbFifo.keys
    ∧ eligible oA.duration_days oA.product_name kEarly = true
    ∧ eligible oA.duration_days oA.product_name kLate = true
    ∧ kEarly.added_at < kLate.added_at
    ∧ kEarly.key_value ≠ kLate.key_value := by decide

/-- C3 (amended): in `bot.py`, whose query orders by `added_at`, every
successful approve is assigned a credential that is eligible for the order's
product and duration and whose creation timestamp is minimal among all
eligible credentials. -/
theorem c3_bot_fifo_earliest (db : DB) (oid operatorId : String) (now : Nat)
    (db' : DB) (v : String) (o : OrderRec)
    (hfind : db.orders.find? (fun x => x.id == oid) = some o)
    (happ : Bot.approve_order db oid operatorId now = (db', .ok v)) :
    ∃ k ∈ db.keys, eligible o.duration_days o.product_name k = true
      ∧ v = k.key_value
      ∧ ∀ x ∈ db.keys, eligible o.duration_days o.product_name x = true →
          k.added_at ≤ x.added_at := by
  simp only [Bot.approve_order, hfind] at happ
  by_cases hp : (o.status != "pending") = true
  · rw [if_pos hp] at happ
    exact absurd (congrArg Prod.snd happ) (by simp)
  · rw [if_neg hp] at happ
    cases hsel : Bot.selectKey db.keys o.duration_days o.product_name with
    | none =>
      rw [hsel] at happ
      exact absurd (congrArg Prod.snd happ) (by simp)
    | some kr =>
      rw [hsel] at happ
      have hv : v = kr.key_value := by
        have h2 := congrArg Prod.snd happ
        simp only [Prod.snd] at h2
        injection h2 with h2
        exact h2.symm
      have hsel' : pickEarliest
          (db.keys.filter (eligible o.duration_days o.product_name)) = some kr := by
        simpa [Bot.selectKey] using hsel
      have hmem := List.mem_filter.mp (pickEarliest_mem hsel')
      refine ⟨kr, hmem.1, hmem.2, hv, ?_⟩
      intro x hx hel
      exact pickEarliest_min hsel' x (List.mem_filter.mpr ⟨hx, hel⟩)

/-- Witness for the amended C3: approving in the two-credential database
assigns the earlier credential `KEY-A`, minimal among eligibles. -/
theorem c3_bot_fifo_earliest_witness :
    ∃ k ∈ dbFifo.keys, eligible oA.duration_days oA.product_name k = true
      ∧ kEarly.key_value = k.key_value
      ∧ ∀ x ∈ dbFifo.keys, eligible oA.duration_days oA.product_name x = true →
          k.added_at ≤ x.added_at :=
  c3_bot_fifo_earliest dbFifo oA.id "a1" 7
    (Bot.approve_order dbFifo oA.id "a1" 7).1 kEarly.key_value oA
    (by decide) (by decide)

/-- Counterexample to C4 as stated: `pannel.py`'s orders schema has no
`approved_by` column and its UPDATE records no operator, so a successful
approve leaves no approving-operator identifier on the order. -/
theorem c4_panel_operator_unrecorded_counterexample :
    (Panel.approve_order db0 oA.id 9).2 = .ok kA.key_value
    ∧ ((Panel.approve_order db0 oA.id 9).1.orders.find?
        (fun x => x.id == oA.id)).map (fun x => x.approved_by) = some none := by
  decide

/-- C4 (amended): for `bot.py`, a successful approve marks exactly the chosen
credential consumed, rewrites the order row to `approved` with the chosen
value, the approval timestamp and the approving operator, and appends exactly
one sales row mirroring the order and the chosen credential. (`pannel.py`
does everything except record the operator — see the counterexample.) -/
theorem c4_bot_approve_postcondition (db : DB) (oid operatorId : String)
    (now : Nat) (db' : DB) (v : String) (o : OrderRec)
    (hfind : db.orders.find? (fun x => x.id == oid) = some o)
    (happ : Bot.approve_order db oid operatorId now = (db', .ok v)) :
    ∃ kr, Bot.selectKey db.keys o.duration_days o.product_name = some kr
      ∧ v = kr.key_value
      ∧ db'.keys = db.keys.map (fun kk =>
          if kk.id == kr.id then { kk with is_used := true } else kk)
      ∧ db'.orders = db.orders.map (fun x =>
          if x.id == oid then
            { x with status := "approved", key_assigned := some v,
                     approved_at := some now, approved_by := some operatorId }
          else x)
      ∧ db'.sales = db.sales ++
          [⟨o.user_id, o.username, o.product_name, o.duration_days, o.amount, v⟩]
      ∧ ((db'.orders.find? (fun x => x.id == oid)).map
          (fun x => (x.status, x.key_assigned, x.approved_at, x.approved_by)))
          = some ("approved", some v, some now, some operatorId) := by
  simp only [Bot.approve_order, hfind] at happ
  by_cases hp : (o.status != "pending") = true
  · rw [if_pos hp] at happ
    exact absurd (congrArg Prod.snd happ) (by simp)
  · rw [if_neg hp] at happ
    cases hsel : Bot.selectKey db.keys o.duration_days o.product_name with
    | none =>
      rw [hsel] at happ
      exact absurd (congrArg Prod.snd happ) (by simp)
    | some kr =>
      rw [hsel] at happ
      have hv : v = kr.key_value := by
        have h2 := congrArg Prod.snd happ
        simp only [Prod.snd] at h2
        injection h2 with h2
        exact h2.symm
      have hdb : db' = { db with
          keys := db.keys.map fun kk =>
            if kk.id == kr.id then { kk with is_used := true } else kk
          orders := db.orders.map fun x =>
            if x.id == oid then
              { x with status := "approved", key_assigned := some kr.key_value,
                       approved_at := some now, approved_by := some operatorId }
            else x
          sales := db.sales ++
            [⟨o.user_id, o.username, o.product_name, o.duration_days,
              o.amount, kr.key_value⟩] } := by
        have h1 := congrArg Prod.fst happ
        simpa using h1.symm
      subst hv
      have hoid : o.id = oid := find?_id_some hfind
      refine ⟨kr, rfl, rfl, ?_, ?_, ?_, ?_⟩
      · rw [hdb]
      · rw [hdb]
      · rw [hdb]
      · rw [hdb]
        rw [find?_map_id_pres]
        · rw [hfind]
          simp [hoid]
        · intro x
          by_cases hx : (x.id == oid) = true <;> simp [hx]

/-- Witness for the amended C4 at the scenario database. -/
theorem c4_bot_approve_postcondition_witness :
    ∃ kr, Bot.selectKey db0.keys oA.duration_days oA.product_name = some kr
      ∧ kA.key_value = kr.key_value
      ∧ (Bot.approve_order db0 oA.id "a1" 5).1.keys = db0.keys.map (fun kk =>
          if kk.id == kr.id then { kk with is_used := true } else kk)
      ∧ (Bot.approve_order db0 oA.id "a1" 5).1.orders = db0.orders.map (fun x =>
          if x.id == oA.id then
            { x with status := "approved", key_assigned := some kA.key_value,
                     approved_at := some 5, approved_by := some "a1" }
          else x)
      ∧ (Bot.approve_order db0 oA.id "a1" 5).1.sales = db0.sales ++
          [⟨oA.user_id, oA.username, oA.product_name, oA.duration_days,
            oA.amount, kA.key_value⟩]
      ∧ (((Bot.approve_order db0 oA.id "a1" 5).1.orders.find?
          (fun x => x.id == oA.id)).map
          (fun x => (x.status, x.key_assigned, x.approved_at, x.approved_by)))
          = some ("approved", some kA.key_value, some 5, some "a1") :=
  c4_bot_approve_postcondition db0 oA.id "a1" 5
    (Bot.approve_order db0 oA.id "a1" 5).1 kA.key_value oA
    (by decide) (by decide)

/-- The attempt counter of the retry loop never exceeds the attempts it was
given. -/
theorem retryGo_attempts_le (sched : Nat → Option DbErr) (db : DB)
    (oid op : String) (now : Nat) :
    ∀ r used, (retryGo sched db oid op now used r).2.2 ≤ used + r := by
  intro r
  induction r with
  | zero =>
    intro used
    simp [retryGo]
  | succ n ih =>
    intro used
    simp only [retryGo]
    cases sched used with
    | none =>
      show used + 1 ≤ used + (n + 1)
      omega
    | some e =>
      dsimp only
      by_cases hr : (retriedErr e && decide (n > 0)) = true
      · rw [if_pos hr]
        exact le_trans (ih (used + 1)) (by omega)
      · rw [if_neg hr]
        show used + 1 ≤ used + (n + 1)
        omega

/-- Counterexample to C8 as stated: a serialization conflict is not in the
`except` tuple of `bot.py`'s retry loop, so it is not classified as
retryable — the very first attempt that hits one escapes the loop after a
single attempt instead of being retried. -/
theorem c8_serialization_not_retried_counterexample :
    retriedErr DbErr.serializationConflict = false
    ∧ Bot.approveWithRetry (fun _ => some DbErr.serializationConflict)
        db0 oA.id "a1" 5
      = (db0, .raised DbErr.serializationConflict, 1) := by decide

/-- C8 (amended): `bot.py`'s approve is wrapped in a loop of at most
`max_retries = 3` attempts which retries exactly the three asyncpg
connection-error classes, with a one-second sleep between attempts; a
completed attempt's business outcome (OrderNotFound, AlreadyDecided,
OutOfStock or success) is returned from the first attempt that produces it,
and any error outside those three classes — serialization conflicts
included — escapes after a single attempt. (`pannel.py`'s approve has no
retry loop at all.) -/
theorem c8_bot_bounded_retry (sched : Nat → Option DbErr) (db : DB)
    (oid op : String) (now : Nat) :
    (Bot.approveWithRetry sched db oid op now).2.2 ≤ max_retries
    ∧ (sched 0 = none →
        Bot.approveWithRetry sched db oid op now
          = ((Bot.approve_order db oid op now).1,
             .business (Bot.approve_order db oid op now).2, 1))
    ∧ (∀ e, sched 0 = some e → retriedErr e = false →
        Bot.approveWithRetry sched db oid op now = (db, .raised e, 1))
    ∧ (∀ e, retriedErr e = true ↔
        (e = .connectionDoesNotExist ∨ e = .interfaceError
          ∨ e = .postgresConnectionError)) := by
  refine ⟨?_, ?_, ?_, ?_⟩
  · have h := retryGo_attempts_le sched db oid op now max_retries 0
    simpa [Bot.approveWithRetry] using h
  · intro h0
    simp [Bot.approveWithRetry, max_retries, retryGo, h0]
  · intro e h0 hre
    simp [Bot.approveWithRetry, max_retries, retryGo, h0, hre]
  · intro e
    cases e <;> simp [retriedErr]

/-- Witness for the amended C8: an error-free schedule completes on the first
attempt with the business result, and a non-transient failure escapes after
one attempt. -/
theorem c8_bot_bounded_retry_witness :
    (Bot.approveWithRetry (fun _ => none) db0 oA.id "a1" 5).2.2 ≤ max_retries
    ∧ Bot.approveWithRetry (fun _ => none) db0 oA.id "a1" 5
        = ((Bot.approve_order db0 oA.id "a1" 5).1,
           .business (Bot.approve_order db0 oA.id "a1" 5).2, 1)
    ∧ Bot.approveWithRetry (fun _ => some DbErr.otherError) db0 oA.id "a1" 5
        = (db0, .raised DbErr.otherError, 1) :=
  ⟨(c8_bot_bounded_retry (fun _ => none) db0 oA.id "a1" 5).1,
    (c8_bot_bounded_retry (fun _ => none) db0 oA.id "a1" 5).2.1 rfl,
    (c8_bot_bounded_retry (fun _ => some DbErr.otherError) db0 oA.id "a1" 5).2.2.1
      DbErr.otherError rfl (by decide)⟩

/-- Mapping an id-preserving update over the orders leaves the id column
unchanged. -/
theorem map_ids_eq (l : List OrderRec) (g : OrderRec → OrderRec)
    (hg : ∀ x, (g x).id = x.id) :
    (l.map g).map (fun o => o.id) = l.map (fun o => o.id) := by
  rw [List.map_map]
  exact List.map_congr_left fun x _ => hg x

/-- Order creation preserves the credential-iff-approved invariant and the
uniqueness of order ids. -/
theorem createOrder_pres (db : DB) (oid uid uname prod : String)
    (dur amount : Int) (now : Nat) (h1 : ordInv db) (h2 : idsNodup db) :
    ordInv (createOrder db oid uid uname prod dur amount now)
    ∧ idsNodup (createOrder db oid uid uname prod dur amount now) := by
  unfold createOrder
  by_cases hex : (db.orders.any fun o => o.id == oid) = true
  · rw [if_pos hex]
    exact ⟨h1, h2⟩
  · rw [if_neg hex]
    constructor
    · intro o ho
      rcases List.mem_append.mp ho with ho | ho
      · exact h1 o ho
      · have he : o = ⟨oid, uid, uname, dur, amount, "pending", none, now, none,
            prod, none⟩ := List.mem_singleton.mp ho
        subst he
        show (none : Option String).isSome = true ↔ "pending" = "approved"
        decide
    · unfold idsNodup at h2 ⊢
      simp only [List.map_append, List.map_cons, List.map_nil]
      rw [List.nodup_append]
      refine ⟨h2, List.nodup_singleton _, ?_⟩
      intro a ha hb
      have hao : a = oid := List.mem_singleton.mp hb
      subst hao
      rcases List.mem_map.mp ha with ⟨o, ho, hoid⟩
      exact hex (List.any_eq_true.mpr ⟨o, ho, beq_iff_eq.mpr hoid⟩)

/-- `bot.py`'s approve preserves the invariant: it sets status and credential
together on the matched order and leaves every other order alone. -/
theorem Bot.approve_pres (db : DB) (oid op : String) (now : Nat)
    (h1 : ordInv db) (h2 : idsNodup db) :
    ordInv (Bot.approve_order db oid op now).1
    ∧ idsNodup (Bot.approve_order db oid op now).1 := by
  unfold Bot.approve_order
  cases hfind : db.orders.find? (fun o => o.id == oid) with
  | none => exact ⟨h1, h2⟩
  | some o =>
    dsimp only
    by_cases hp : (o.status != "pending") = true
    · rw [if_pos hp]
      exact ⟨h1, h2⟩
    · rw [if_neg hp]
      cases hsel : Bot.selectKey db.keys o.duration_days o.product_name with
      | none => exact ⟨h1, h2⟩
      | some kr =>
        dsimp only
        constructor
        · intro x hx
          rcases List.mem_map.mp hx with ⟨y, hy, rfl⟩
          by_cases hid : (y.id == oid) = true
          · rw [if_pos hid]
            simp
          · rw [if_neg hid]
            exact h1 y hy
        · unfold idsNodup at h2 ⊢
          rw [map_ids_eq]
          · exact h2
          · intro x
            by_cases hx : (x.id == oid) = true <;> simp [hx]

/-- `pannel.py`'s approve preserves the invariant for the same reason. -/
theorem panel_approve_pres (db : DB) (oid : String) (now : Nat)
    (h1 : ordInv db) (h2 : idsNodup db) :
    ordInv (Panel.approve_order db oid now).1
    ∧ idsNodup (Panel.approve_order db oid now).1 := by
  unfold Panel.approve_order
  cases hfind : db.orders.find? (fun o => o.id == oid) with
  | none => exact ⟨h1, h2⟩
  | some o =>
    dsimp only
    by_cases hp : (o.status != "pending") = true
    · rw [if_pos hp]
      exact ⟨h1, h2⟩
    · rw [if_neg hp]
      cases hsel : Panel.selectKey db.keys o.duration_days o.product_name with
      | none => exact ⟨h1, h2⟩
      | some kr =>
        dsimp only [Panel.approveWrites, List.foldl]
        constructor
        · intro x hx
          rcases List.mem_map.mp hx with ⟨y, hy, rfl⟩
          by_cases hid : (y.id == oid) = true
          · rw [if_pos hid]
            simp
          · rw [if_neg hid]
            exact h1 y hy
        · unfold idsNodup at h2 ⊢
          rw [map_ids_eq]
          · exact h2
          · intro x
            by_cases hx : (x.id == oid) = true <;> simp [hx]

/-- `bot.py`'s reject preserves the invariant: the matched order was pending,
so by the invariant its credential field is null, and the update flips only
its status. -/
theorem Bot.reject_pres (db : DB) (oid : String)
    (h1 : ordInv db) (h2 : idsNodup db) :
    ordInv (Bot.reject_order db oid).1 ∧ idsNodup (Bot.reject_order db oid).1 := by
  unfold Bot.reject_order
  cases hfind : db.orders.find? (fun x => x.id == oid) with
  | none => exact ⟨h1, h2⟩
  | some o =>
    dsimp only
    by_cases hp : (o.status != "pending") = true
    · rw [if_pos hp]
      exact ⟨h1, h2⟩
    · rw [if_neg hp]
      have hpend : o.status = "pending" := by
        simpa [bne_iff_ne] using hp
      have homem : o ∈ db.orders := List.mem_of_find?_eq_some hfind
      have hoid : o.id = oid := find?_id_some hfind
      have hokey : o.key_assigned = none := by
        cases hka : o.key_assigned with
        | none => rfl
        | some v =>
          have hiff := h1 o homem
          rw [hpend, hka] at hiff
          exact absurd (hiff.mp rfl) (by decide)
      constructor
      · intro x hx
        rcases List.mem_map.mp hx with ⟨y, hy, rfl⟩
        by_cases hid : (y.id == oid) = true
        · rw [if_pos hid]
          have hyo : y = o := List.inj_on_of_nodup_map h2 hy homem
            ((beq_iff_eq.mp hid).trans hoid.symm)
          subst hyo
          simp [hokey]
        · rw [if_neg hid]
          exact h1 y hy
      · unfold idsNodup at h2 ⊢
        rw [map_ids_eq]
        · exact h2
        · intro x
          by_cases hx : (x.id == oid) = true <;> simp [hx]

/-- `pannel.py`'s reject is the same database logic as `bot.py`'s. -/
theorem panel_reject_pres (db : DB) (oid : String)
    (h1 : ordInv db) (h2 : idsNodup db) :
    ordInv (Panel.reject_order db oid).1 ∧ idsNodup (Panel.reject_order db oid).1 := by
  have he : Panel.reject_order db oid = Bot.reject_order db oid := rfl
  rw [he]
  exact Bot.reject_pres db oid h1 h2

/-- Every lifecycle operation preserves the invariant and id uniqueness. -/
theorem execOp_pres (db : DB) (op : AdminOp) (h1 : ordInv db) (h2 : idsNodup db) :
    ordInv (execOp db op) ∧ idsNodup (execOp db op) := by
  cases op with
  | create oid uid uname prod dur amount now =>
    exact createOrder_pres db oid uid uname prod dur amount now h1 h2
  | approveB oid operatorId now => exact Bot.approve_pres db oid operatorId now h1 h2
  | approveP oid now => exact panel_approve_pres db oid now h1 h2
  | rejectB oid => exact Bot.reject_pres db oid h1 h2
  | rejectP oid => exact panel_reject_pres db oid h1 h2

/-- C6: after any sequence of order creations, approvals (either variant) and
rejections (either variant), starting from a database satisfying the
invariant with distinct order ids (the fresh empty table in particular),
every order's assigned credential is non-null exactly when its status is
`approved`; creations insert pending orders with a null credential, approve
sets status and credential together, and reject leaves the credential null. -/
theorem c6_assigned_iff_approved (ops : List AdminOp) (db : DB)
    (h1 : ordInv db) (h2 : idsNodup db) :
    ordInv (ops.foldl execOp db) ∧ idsNodup (ops.foldl execOp db) := by
  induction ops generalizing db with
  | nil => exact ⟨h1, h2⟩
  | cons op rest ih =>
    simp only [List.foldl_cons]
    obtain ⟨g1, g2⟩ := execOp_pres db op h1 h2
    exact ih _ g1 g2

/-- Witness for C6: a concrete sequence — create a third order, approve O1
via `bot.py`, reject O2, approve the new order via `pannel.py`. -/
theorem c6_assigned_iff_approved_witness :
    ordInv (([AdminOp.create "o9" "u9" "dave" "bgmi loader" 15 699 3,
        AdminOp.approveB "o1" "a1" 5, AdminOp.rejectB "o2",
        AdminOp.approveP "o9" 6] : List AdminOp).foldl execOp db0)
    ∧ idsNodup (([AdminOp.create "o9" "u9" "dave" "bgmi loader" 15 699 3,
        AdminOp.approveB "o1" "a1" 5, AdminOp.rejectB "o2",
        AdminOp.approveP "o9" 6] : List AdminOp).foldl execOp db0) :=
  c6_assigned_iff_approved _ db0 (by decide) (by decide)

/-- C9: both variants of `/add_key` refuse a duration outside
`DEFAULT_PLANS = {1, 3, 7, 15, 30, 60}` before touching the keys table, and
any key row present after an `/add_key` call was either already there or has
one of those six durations. -/
theorem c9_add_key_duration_guard (db : DB) (days : Int) (key ps : String)
    (newId now : Nat) :
    (days ∉ DEFAULT_PLANS →
      Bot.add_key db days key ps newId now = (db, .invalidDuration)
      ∧ Panel.add_key db days key ps newId now = (db, .invalidDuration))
    ∧ (∀ kr ∈ (Bot.add_key db days key ps newId now).1.keys,
        kr ∈ db.keys ∨ kr.duration_days ∈ DEFAULT_PLANS)
    ∧ (∀ kr ∈ (Panel.add_key db days key ps newId now).1.keys,
        kr ∈ db.keys ∨ kr.duration_days ∈ DEFAULT_PLANS) := by
  by_cases hc : (DEFAULT_PLANS.contains days) = true
  · have hmem : days ∈ DEFAULT_PLANS := List.elem_iff.mp hc
    have hcond : (!(DEFAULT_PLANS.contains days)) = false := by rw [hc]; rfl
    refine ⟨fun hnot => absurd hmem hnot, ?_, ?_⟩
    · intro kr hkr
      unfold Bot.add_key at hkr
      rw [hcond] at hkr
      simp only [Bool.false_eq_true, if_false] at hkr
      cases hg : Bot.get_full_name_by_short db.products ps with
      | none =>
        rw [hg] at hkr
        exact Or.inl hkr
      | some pn =>
        rw [hg] at hkr
        dsimp only at hkr
        by_cases hdup : (db.keys.any fun k => k.key_value == key) = true
        · rw [if_pos hdup] at hkr
          exact Or.inl hkr
        · rw [if_neg hdup] at hkr
          rcases List.mem_append.mp hkr with hkr | hkr
          · exact Or.inl hkr
          · right
            have he : kr = ⟨newId, days, key, false, now, pn⟩ :=
              List.mem_singleton.mp hkr
            subst he
            exact hmem
    · intro kr hkr
      unfold Panel.add_key at hkr
      rw [hcond] at hkr
      simp only [Bool.false_eq_true, if_false] at hkr
      cases hg : (PRODUCT_SHORT_NAMES.find? (fun p => p.1 == ps)).map (·.2) with
      | none =>
        rw [hg] at hkr
        exact Or.inl hkr
      | some pn =>
        rw [hg] at hkr
        dsimp only at hkr
        by_cases hdup : (db.keys.any fun k => k.key_value == key) = true
        · rw [if_pos hdup] at hkr
          exact Or.inl hkr
        · rw [if_neg hdup] at hkr
          rcases List.mem_append.mp hkr with hkr | hkr
          · exact Or.inl hkr
          · right
            have he : kr = ⟨newId, days, key, false, now, pn⟩ :=
              List.mem_singleton.mp hkr
            subst he
            exact hmem
  · have hcf : (DEFAULT_PLANS.contains days) = false := by
      cases h : DEFAULT_PLANS.contains days
      · rfl
      · exact absurd h hc
    have hcond : (!(DEFAULT_PLANS.contains days)) = true := by rw [hcf]; rfl
    have eB : Bot.add_key db days key ps newId now = (db, .invalidDuration) := by
      unfold Bot.add_key
      rw [hcond]
      rfl
    have eP : Panel.add_key db days key ps newId now = (db, .invalidDuration) := by
      unfold Panel.add_key
      rw [hcond]
      rfl
    refine ⟨fun _ => ⟨eB, eP⟩, ?_, ?_⟩
    · intro kr hkr
      rw [eB] at hkr
      exact Or.inl hkr
    · intro kr hkr
      rw [eP] at hkr
      exact Or.inl hkr

/-- Witness for C9: duration 5 is not a plan, so `/add_key 5 ...` changes
nothing in either variant. -/
theorem c9_add_key_duration_guard_witness :
    Bot.add_key db0 5 "NEW-KEY" "bgmi" 9 9 = (db0, .invalidDuration)
    ∧ Panel.add_key db0 5 "NEW-KEY" "bgmi" 9 9 = (db0, .invalidDuration) :=
  (c9_add_key_duration_guard db0 5 "NEW-KEY" "bgmi" 9 9).1 (by decide)

/-- C10: when the conversation data lacks the selected product, the selected
plan or the price, `payment_proof` (either variant) creates no order, messages
no admin, and tells the buyer the session expired. -/
theorem c10_incomplete_session_no_order (db : DB) (sess : Session)
    (uid uname oid : String) (admins : List Nat) (now : Nat)
    (h : sess.selected_product = none ∨ sess.selected_plan = none
      ∨ sess.price = none) :
    Bot.payment_proof db sess uid uname oid admins now = (db, [], .sessionExpired)
    ∧ Panel.payment_proof db sess uid uname oid admins now
      = (db, [], .sessionExpired) := by
  have hguard : (!truthyStr sess.selected_product || !truthyInt sess.selected_plan
      || !truthyInt sess.price) = true := by
    rcases h with h | h | h <;> simp [h, truthyStr, truthyInt]
  constructor
  · unfold Bot.payment_proof
    rw [hguard]
    rfl
  · unfold Panel.payment_proof
    rw [hguard]
    rfl

/-- Witness for C10: a session that never picked a product. -/
theorem c10_incomplete_session_no_order_witness :
    Bot.payment_proof db0 ⟨none, some 15, some 699⟩ "u9" "dave" "o9" [7] 3
      = (db0, [], .sessionExpired)
    ∧ Panel.payment_proof db0 ⟨none, some 15, some 699⟩ "u9" "dave" "o9" [7] 3
      = (db0, [], .sessionExpired) :=
  c10_incomplete_session_no_order db0 ⟨none, some 15, some 699⟩ "u9" "dave" "o9"
    [7] 3 (Or.inl rfl)
